import Mathlib

/-!
Verification development for the convex-api-keys component.

The TypeScript source is shallowly embedded: Convex documents become Lean
structures, the database becomes an explicit `Store` record threaded through
each mutation handler, and optional fields become `Option`.  JS numbers are
floats accepted unvalidated by the validators (`v.number()`): the usage-credit
fields (`remaining` and the refill `amount`), whose behavior genuinely depends
on fractional values, are embedded as `ℚ` (every float is a rational, and the
only arithmetic on them here — subtraction of 1 and comparison with 0 — is
exact); timestamps, rate-limit counters and durations, which the code only
compares, adds and floors, are embedded as `Int`.  JS truthiness tests on optional numbers (`if (keyRecord.revokedAt)`)
are modelled by `jsTruthy`, which is false for `undefined` and for `0`.
Opaque display/provenance fields (`prefix`, `hint`, `meta`, `environment`,
`rotatedFrom`) and the opaque `tags`/`ip` log payloads are omitted: no embedded
function inspects them.  SHA-256 hashing is external to the embedding; handlers
take the computed digest (`hash`) as input.
-/

namespace ApiKeys

/-- JS truthiness of an optional number: `undefined` and `0` are falsy. -/
def jsTruthy : Option Int → Bool
  | none => false
  | some n => n != 0

/-- Refill policy stored on a key (`{amount, interval, lastRefill}`). -/
structure RefillPolicy where
  amount : ℚ
  interval : String
  lastRefill : Int
deriving DecidableEq, Repr

/-- Rate-limit policy stored on a key (`{limit, duration, type}`). -/
structure RatelimitPolicy where
  limit : Int
  duration : Int
  policyType : String
deriving DecidableEq, Repr

/-- A document of the `keys` table (display-only fields omitted). -/
structure KeyRecord where
  id : Nat
  hash : String
  «namespace» : String
  ownerId : String
  name : String
  createdAt : Int
  updatedAt : Int
  expires : Option Int
  remaining : Option ℚ
  refill : Option RefillPolicy
  ratelimit : Option RatelimitPolicy
  enabled : Bool
  revokedAt : Option Int
  rotationGraceEnd : Option Int
  permissionIds : List String
  roleIds : List String
deriving DecidableEq, Repr

/-- A document of the `rateLimitBuckets` table. -/
structure RateLimitBucket where
  keyOrOwnerId : String
  «namespace» : String
  windowStart : Int
  count : Int
  limit : Int
  duration : Int
deriving DecidableEq, Repr

/-- A document of the `rateLimitOverrides` table. -/
structure RateLimitOverride where
  keyOrOwnerId : String
  «namespace» : String
  limit : Int
  duration : Int
deriving DecidableEq, Repr

/-- A document of the `verificationLogs` table (opaque tags/ip omitted). -/
structure VerificationLogEntry where
  keyHash : String
  timestamp : Int
  success : Bool
  code : String
  remaining : Option ℚ
  rateLimitRemaining : Option Int
deriving DecidableEq, Repr

/-- A document of the `roles` table. -/
structure Role where
  id : String
  name : String
  permissionIds : List String
deriving DecidableEq, Repr

/-- A document of the `permissions` table. -/
structure Permission where
  id : String
  name : String
deriving DecidableEq, Repr

/-- A document of the `analyticsRollups` table. -/
structure AnalyticsRollup where
  «namespace» : String
  keyHash : String
  period : String
  timestamp : Int
  valid : Int
  rateLimited : Int
  usageExceeded : Int
  expired : Int
  revoked : Int
  disabled : Int
  notFound : Int
  total : Int
deriving DecidableEq, Repr

/-- A document of the `auditLog` table (structured details omitted). -/
structure AuditEntry where
  action : String
  timestamp : Int
deriving DecidableEq, Repr

/-- The component's database: one list per table. -/
structure Store where
  keys : List KeyRecord
  buckets : List RateLimitBucket
  overrides : List RateLimitOverride
  logs : List VerificationLogEntry
  roles : List Role
  permissions : List Permission
  rollups : List AnalyticsRollup
  auditLog : List AuditEntry
deriving DecidableEq, Repr

/-- `.withIndex("by_hash", ...).first()`: first key document with this hash. -/
def findKey (keys : List KeyRecord) (hash : String) : Option KeyRecord :=
  keys.find? (fun k => k.hash == hash)

/-- `ctx.db.get(keyId)`: lookup of a key document by its document id. -/
def getKeyById (keys : List KeyRecord) (id : Nat) : Option KeyRecord :=
  keys.find? (fun k => k.id == id)

/-- `ctx.db.patch(id, ...)` on the `keys` table: document ids are unique, so
patching is mapping the update over the record with that id. -/
def patchKeys (keys : List KeyRecord) (id : Nat) (f : KeyRecord → KeyRecord) :
    List KeyRecord :=
  keys.map (fun k => if k.id == id then f k else k)

/-- Result of `checkKeyValidity` (the TS union `CheckResult`). -/
inductive CheckResult where
  | ok : CheckResult
  | fail (code : String) (message : String) : CheckResult
deriving DecidableEq, Repr

/-- `checkKeyValidity` from `functions/shared/verifyChecks.ts`: the sequential
early-return validity checks (revoked, disabled, expired, rotation grace). -/
def checkKeyValidity (keyRecord : KeyRecord) (now : Int) : CheckResult :=
  if jsTruthy keyRecord.revokedAt then
    .fail "REVOKED" "API key has been revoked"
  else if !keyRecord.enabled then
    .fail "DISABLED" "API key is disabled"
  else if jsTruthy keyRecord.expires && decide (keyRecord.expires.getD 0 < now) then
    .fail "EXPIRED" "API key has expired"
  else if jsTruthy keyRecord.rotationGraceEnd
      && decide (keyRecord.rotationGraceEnd.getD 0 < now) then
    .fail "ROTATION_GRACE_EXPIRED" "API key rotation grace period has expired"
  else
    .ok

/-- `REFILL_INTERVALS` from `functions/shared/verifyChecks.ts`; an interval
string outside the table yields `undefined` (here `none`).  All table entries
are nonzero, so the code's `if (!intervalMs) return` is exactly the `none`
test. -/
def refillIntervalMs (interval : String) : Option Int :=
  if interval == "hourly" then some 3600000
  else if interval == "daily" then some 86400000
  else if interval == "weekly" then some 604800000
  else if interval == "monthly" then some 2592000000
  else none

/-- `applyRefillIfNeeded` from `functions/shared/verifyChecks.ts`: returns the
(possibly refreshed) in-memory key record together with the patched store, as
the source both patches the database row and mutates the local record. -/
def applyRefillIfNeeded (st : Store) (keyRecord : KeyRecord) (now : Int) :
    KeyRecord × Store :=
  match keyRecord.refill, keyRecord.remaining with
  | some rf, some _ =>
    match refillIntervalMs rf.interval with
    | none => (keyRecord, st)
    | some intervalMs =>
      if intervalMs ≤ now - rf.lastRefill then
        let k' := { keyRecord with
          remaining := some rf.amount
          refill := some { rf with lastRefill := now }
          updatedAt := now }
        (k', { st with keys := patchKeys st.keys keyRecord.id (fun _ => k') })
      else (keyRecord, st)
  | _, _ => (keyRecord, st)

/-- Insert into a JS `Set`-backed ordered collection: appends unless present. -/
def insertUnique (l : List String) (x : String) : List String :=
  if l.contains x then l else l ++ [x]

/-- `resolvePermissions` from `functions/shared/verifyChecks.ts`: collects the
direct permission ids into an insertion-ordered set, unions in each found
role's permission ids while recording the role's name (silently skipping
dangling role ids), then maps each collected permission id to its name
(silently skipping dangling permission ids). -/
def resolvePermissions (st : Store) (permissionIds roleIds : List String) :
    List String × List String :=
  let init := permissionIds.foldl insertUnique []
  let step := roleIds.foldl
    (fun (acc : List String × List String) roleId =>
      match st.roles.find? (fun r => r.id == roleId) with
      | some role =>
        (role.permissionIds.foldl insertUnique acc.1, acc.2 ++ [role.name])
      | none => acc)
    (init, [])
  let permissionNames := step.1.foldl
    (fun names permId =>
      match st.permissions.find? (fun p => p.id == permId) with
      | some perm => names ++ [perm.name]
      | none => names)
    []
  (permissionNames, step.2)

/-- Result shape of `checkAndUpdateRateLimit` (`{success, remaining, reset}`). -/
structure RateLimitResult where
  success : Bool
  remaining : Int
  reset : Int
deriving DecidableEq, Repr

/-- `.withIndex("by_key_namespace", ...).first()` on `rateLimitBuckets`. -/
def findBucket (buckets : List RateLimitBucket) (identifier ns : String) :
    Option RateLimitBucket :=
  buckets.find? (fun b => b.keyOrOwnerId == identifier && b.«namespace» == ns)

/-- `ctx.db.patch(doc._id, ...)` after a `.first()` lookup: the patched
document is the first match of the lookup predicate, so patching updates the
first match of the list. -/
def updateFirst {α : Type} (p : α → Bool) (f : α → α) : List α → List α
  | [] => []
  | x :: xs => if p x then f x :: xs else x :: updateFirst p f xs

/-- `checkAndUpdateRateLimit` from `functions/shared/ratelimitCore.ts`: the
sliding-window counter with automatic bucket creation and window reset. -/
def checkAndUpdateRateLimit (buckets : List RateLimitBucket)
    (identifier ns : String) (limit duration now : Int) :
    RateLimitResult × List RateLimitBucket :=
  match findBucket buckets identifier ns with
  | none =>
    ({ success := true, remaining := limit - 1, reset := now + duration },
     buckets ++ [{ keyOrOwnerId := identifier, «namespace» := ns,
                   windowStart := now, count := 1, limit := limit,
                   duration := duration }])
  | some bucket =>
    if bucket.windowStart < now - duration then
      ({ success := true, remaining := limit - 1, reset := now + duration },
       updateFirst (fun b => b.keyOrOwnerId == identifier && b.«namespace» == ns)
         (fun b => { b with windowStart := now, count := 1 }) buckets)
    else if limit ≤ bucket.count then
      ({ success := false, remaining := 0, reset := bucket.windowStart + duration },
       buckets)
    else
      ({ success := true, remaining := limit - bucket.count - 1,
         reset := bucket.windowStart + duration },
       updateFirst (fun b => b.keyOrOwnerId == identifier && b.«namespace» == ns)
         (fun b => { b with count := bucket.count + 1 }) buckets)

/-- The mutation result shape `VerificationResult` (opaque `meta` omitted;
`keyId` keeps the document id). -/
structure VerificationResult where
  valid : Bool
  code : String
  keyId : Option Nat
  ownerId : Option String
  remaining : Option ℚ
  ratelimit : Option (Int × Int)
  permissions : List String
  roles : List String
  message : Option String
deriving DecidableEq, Repr

/-- `logVerification` from `functions/shared/verifyChecks.ts`: appends one
verification log entry. -/
def logVerification (st : Store) (keyHash : String) (now : Int) (success : Bool)
    (code : String) (rateLimitRemaining : Option Int) (remaining : Option ℚ) :
    Store :=
  { st with logs := st.logs ++
      [{ keyHash := keyHash, timestamp := now, success := success, code := code,
         remaining := remaining, rateLimitRemaining := rateLimitRemaining }] }

/-- Tail of the `verify` handler after all checks pass: credit decrement,
permission resolution, success log, success result.  The source's
`VerificationResult.permissions` field is typed `string[]`, so the resolver's
`permissionNames` component is what flows into it. -/
def verifySuccessTail (st : Store) (keyRecord : KeyRecord) (hash : String)
    (now : Int) : VerificationResult × Store :=
  let newRemaining := keyRecord.remaining.map (fun r => r - 1)
  let st := match keyRecord.remaining with
    | some r =>
      let keys' := patchKeys st.keys keyRecord.id
        (fun k => { k with remaining := some (r - 1), updatedAt := now })
      { st with keys := keys' }
    | none => st
  let resolved := resolvePermissions st keyRecord.permissionIds keyRecord.roleIds
  let st := logVerification st hash now true "VALID" none newRemaining
  ({ valid := true, code := "VALID", keyId := some keyRecord.id,
     ownerId := some keyRecord.ownerId, remaining := newRemaining,
     ratelimit := none, permissions := resolved.1, roles := keyRecord.roleIds,
     message := some "API key is valid" }, st)

/-- Key-level rate-limit step of the verify pipeline, factored out of `verify`:
`none` means the step passed (no policy, or a slot was consumed), `some (r, t)`
means denial with the returned remaining and reset. -/
def keyLevelRateLimit (st : Store) (keyRecord : KeyRecord) (hash : String)
    (now : Int) : Option (Int × Int) × Store :=
  match keyRecord.ratelimit with
  | none => (none, st)
  | some rl =>
    let ov := st.overrides.find?
      (fun o => o.keyOrOwnerId == hash && o.«namespace» == keyRecord.«namespace»)
    let checked := checkAndUpdateRateLimit st.buckets hash
      keyRecord.«namespace»
      (match ov with | some o => o.limit | none => rl.limit)
      (match ov with | some o => o.duration | none => rl.duration) now
    if checked.1.success then (none, { st with buckets := checked.2 })
    else (some (checked.1.remaining, checked.1.reset),
          { st with buckets := checked.2 })

/-- The RATE_LIMITED failure result returned by the verify pipeline. -/
def rateLimitedResult (keyRecord : KeyRecord) (rr : Int × Int) :
    VerificationResult :=
  { valid := false, code := "RATE_LIMITED", keyId := some keyRecord.id,
    ownerId := some keyRecord.ownerId, remaining := none,
    ratelimit := some rr, permissions := [], roles := [],
    message := some "Rate limit exceeded" }

/-- The `verify` mutation handler (the current, refactored orchestrator built
on `checkKeyValidity` / `applyRefillIfNeeded` / `checkAndUpdateRateLimit` /
`resolvePermissions` / `logVerification`): hash lookup, validity checks,
refill, usage gate, key-level rate limit with per-digest override, credit
decrement, permission resolution, and one log write on every branch. -/
def verify (st : Store) (hash : String) (now : Int) :
    VerificationResult × Store :=
  match findKey st.keys hash with
  | none =>
    ({ valid := false, code := "NOT_FOUND", keyId := none, ownerId := none,
       remaining := none, ratelimit := none, permissions := [], roles := [],
       message := some "API key not found" },
     logVerification st hash now false "NOT_FOUND" none none)
  | some keyRecord =>
    match checkKeyValidity keyRecord now with
    | .fail code message =>
      ({ valid := false, code := code, keyId := some keyRecord.id,
         ownerId := some keyRecord.ownerId, remaining := none,
         ratelimit := none, permissions := [], roles := [],
         message := some message },
       logVerification st hash now false code none none)
    | .ok =>
      let refreshed := applyRefillIfNeeded st keyRecord now
      let keyRecord := refreshed.1
      let st := refreshed.2
      if (match keyRecord.remaining with
          | some r => decide (r ≤ 0)
          | none => false) then
        ({ valid := false, code := "USAGE_EXCEEDED", keyId := some keyRecord.id,
           ownerId := some keyRecord.ownerId, remaining := some 0,
           ratelimit := none, permissions := [], roles := [],
           message := some "API key usage limit exceeded" },
         logVerification st hash now false "USAGE_EXCEEDED" none none)
      else
        match keyLevelRateLimit st keyRecord hash now with
        | (some rr, st') =>
          (rateLimitedResult keyRecord rr,
           logVerification st' hash now false "RATE_LIMITED" (some rr.1) none)
        | (none, st') => verifySuccessTail st' keyRecord hash now

/-- Modelled from the spec: the owner-level shared rate-limit step of the
verification orchestrator (spec section 4.6 step 7).  The current `lib.ts`
implementing this step (together with its `setOwnerRateLimit` /
`deleteOwnerRateLimit` admin mutations, which the client SDK and the README
reference) is missing from the source tree; per the spec, an override keyed by
the owner id rather than the key digest is looked up for (ownerId, namespace)
and, when present, `checkAndConsume` runs against the owner-identifier bucket
using the same algorithm. -/
def ownerLevelRateLimit (st : Store) (keyRecord : KeyRecord) (now : Int) :
    Option (Int × Int) × Store :=
  match st.overrides.find?
      (fun o => o.keyOrOwnerId == keyRecord.ownerId
        && o.«namespace» == keyRecord.«namespace») with
  | none => (none, st)
  | some ov =>
    let checked := checkAndUpdateRateLimit st.buckets keyRecord.ownerId
      keyRecord.«namespace» ov.limit ov.duration now
    if checked.1.success then (none, { st with buckets := checked.2 })
    else (some (checked.1.remaining, checked.1.reset),
          { st with buckets := checked.2 })

/-- Modelled from the spec: the verification orchestrator of spec section 4.6
including step 7 (owner-level shared rate limit), i.e. `verify` extended with
`ownerLevelRateLimit` between the key-level rate-limit step and the credit
decrement.  All other steps are the embedded source pipeline. -/
def verifyWithOwnerLimit (st : Store) (hash : String) (now : Int) :
    VerificationResult × Store :=
  match findKey st.keys hash with
  | none =>
    ({ valid := false, code := "NOT_FOUND", keyId := none, ownerId := none,
       remaining := none, ratelimit := none, permissions := [], roles := [],
       message := some "API key not found" },
     logVerification st hash now false "NOT_FOUND" none none)
  | some keyRecord =>
    match checkKeyValidity keyRecord now with
    | .fail code message =>
      ({ valid := false, code := code, keyId := some keyRecord.id,
         ownerId := some keyRecord.ownerId, remaining := none,
         ratelimit := none, permissions := [], roles := [],
         message := some message },
       logVerification st hash now false code none none)
    | .ok =>
      let refreshed := applyRefillIfNeeded st keyRecord now
      let keyRecord := refreshed.1
      let st := refreshed.2
      if (match keyRecord.remaining with
          | some r => decide (r ≤ 0)
          | none => false) then
        ({ valid := false, code := "USAGE_EXCEEDED", keyId := some keyRecord.id,
           ownerId := some keyRecord.ownerId, remaining := some 0,
           ratelimit := none, permissions := [], roles := [],
           message := some "API key usage limit exceeded" },
         logVerification st hash now false "USAGE_EXCEEDED" none none)
      else
        match keyLevelRateLimit st keyRecord hash now with
        | (some rr, st') =>
          (rateLimitedResult keyRecord rr,
           logVerification st' hash now false "RATE_LIMITED" (some rr.1) none)
        | (none, st') =>
          match ownerLevelRateLimit st' keyRecord now with
          | (some rr, st'') =>
            (rateLimitedResult keyRecord rr,
             logVerification st'' hash now false "RATE_LIMITED" (some rr.1) none)
          | (none, st'') => verifySuccessTail st'' keyRecord hash now

/-- `assertPositive` from `functions/shared/validation.ts` (the template
literal written as explicit concatenation). -/
def assertPositive (value : Int) (name : String) : Except String Unit :=
  if value ≤ 0 then .error (name ++ " must be positive, got " ++ toString value)
  else .ok ()

/-- `revoke` from `functions/keys/lifecycle.ts`: `assertKeyExists` throws
"Key not found" before any write (the thrown error aborts the transaction, so
the store is returned unchanged); soft revoke patches `revokedAt` and
`enabled`, hard revoke (`soft === false`) deletes the record. -/
def revoke (st : Store) (keyId : Nat) (soft : Option Bool) (now : Int) :
    Except String Unit × Store :=
  match getKeyById st.keys keyId with
  | none => (.error "Key not found", st)
  | some _ =>
    let keys' :=
      if soft == some false then st.keys.filter (fun k => !(k.id == keyId))
      else patchKeys st.keys keyId
        (fun k => { k with
          revokedAt := some now
          enabled := false
          updatedAt := now })
    let st' := { st with keys := keys' }
    (.ok (), { st' with auditLog := st'.auditLog ++ [⟨"key.revoked", now⟩] })

/-- Arguments of the `update` mutation (opaque `meta` omitted; an `expires`
value of `some none` is the explicit `null` clearing the field). -/
structure UpdateArgs where
  keyId : Nat
  name : Option String
  expires : Option (Option Int)
  remaining : Option ℚ
  ratelimit : Option (Int × Int)
  enabled : Option Bool
deriving DecidableEq, Repr

/-- `update` (key update mutation): `assertKeyExists` throws "Key not found"
before any write; otherwise the present fields are patched and `updatedAt`
bumped, and an audit entry is appended. -/
def update (st : Store) (args : UpdateArgs) (now : Int) :
    Except String Unit × Store :=
  match getKeyById st.keys args.keyId with
  | none => (.error "Key not found", st)
  | some _ =>
    let applyPatch := fun (k : KeyRecord) =>
      let k := match args.name with
        | some n => { k with name := n } | none => k
      let k := match args.expires with
        | some e => { k with expires := e } | none => k
      let k := match args.remaining with
        | some r => { k with remaining := some r } | none => k
      let k := match args.enabled with
        | some e => { k with enabled := e } | none => k
      let k := match args.ratelimit with
        | some rl =>
          { k with ratelimit := some ⟨rl.1, rl.2, "sliding_window"⟩ }
        | none => k
      { k with updatedAt := now }
    let st' := { st with keys := patchKeys st.keys args.keyId applyPatch }
    (.ok (), { st' with auditLog := st'.auditLog ++ [⟨"key.updated", now⟩] })

/-- `rotate` (key rotation mutation): `assertKeyExists` throws "Key not found"
before any write; otherwise a new key inheriting the old key's configuration
is inserted (the generated plaintext/hash and the allotted document id are
external inputs `freshHash`/`newId`), and the old key is either stamped with
`rotationGraceEnd` (truthy grace period) or disabled and revoked. -/
def rotate (st : Store) (keyId : Nat) (gracePeriodMs : Option Int)
    (freshHash : String) (newId : Nat) (now : Int) :
    Except String Nat × Store :=
  match getKeyById st.keys keyId with
  | none => (.error "Key not found", st)
  | some oldKey =>
    let newKey : KeyRecord :=
      { id := newId, hash := freshHash, «namespace» := oldKey.«namespace»,
        ownerId := oldKey.ownerId, name := oldKey.name,
        createdAt := now, updatedAt := now, expires := oldKey.expires,
        remaining := oldKey.remaining, refill := oldKey.refill,
        ratelimit := oldKey.ratelimit, enabled := true,
        revokedAt := none, rotationGraceEnd := none,
        permissionIds := oldKey.permissionIds, roleIds := oldKey.roleIds }
    let keys₁ := st.keys ++ [newKey]
    let keys₂ :=
      if jsTruthy gracePeriodMs then
        patchKeys keys₁ keyId
          (fun k => { k with
            rotationGraceEnd := some (now + gracePeriodMs.getD 0),
            updatedAt := now })
      else
        patchKeys keys₁ keyId
          (fun k => { k with
            enabled := false
            revokedAt := some now
            updatedAt := now })
    let st' := { st with keys := keys₂ }
    (.ok newId, { st' with auditLog := st'.auditLog ++ [⟨"key.rotated", now⟩] })

/-- `checkRateLimit` from `functions/ratelimit.ts`: `assertPositive` on limit
and duration (throwing before the bucket store is touched), then the shared
`checkAndUpdateRateLimit`. -/
def checkRateLimit (st : Store) (identifier ns : String)
    (limit duration now : Int) : Except String RateLimitResult × Store :=
  match assertPositive limit "limit" with
  | .error e => (.error e, st)
  | .ok _ =>
    match assertPositive duration "duration" with
    | .error e => (.error e, st)
    | .ok _ =>
      let checked := checkAndUpdateRateLimit st.buckets identifier ns limit
        duration now
      (.ok checked.1, { st with buckets := checked.2 })

/-- `setRateLimitOverride` from `functions/ratelimit.ts`: `assertPositive` on
limit and duration, `assertKeyExists`, then upsert of the override keyed by
the key's hash and namespace, plus an audit entry. -/
def setRateLimitOverride (st : Store) (keyId : Nat) (limit duration now : Int) :
    Except String Unit × Store :=
  match assertPositive limit "limit" with
  | .error e => (.error e, st)
  | .ok _ =>
    match assertPositive duration "duration" with
    | .error e => (.error e, st)
    | .ok _ =>
      match getKeyById st.keys keyId with
      | none => (.error "Key not found", st)
      | some key =>
        let isMatch := fun (o : RateLimitOverride) =>
          o.keyOrOwnerId == key.hash && o.«namespace» == key.«namespace»
        let overrides' :=
          match st.overrides.find? isMatch with
          | some _ => updateFirst isMatch
              (fun o => { o with limit := limit, duration := duration })
              st.overrides
          | none => st.overrides ++
              [{ keyOrOwnerId := key.hash, «namespace» := key.«namespace»,
                 limit := limit, duration := duration }]
        let st' := { st with overrides := overrides' }
        (.ok (), { st' with
          auditLog := st'.auditLog ++ [⟨"ratelimit.override_set", now⟩] })

/-- The `UsageStatsAccumulator` of `functions/shared/aggregateStats.ts`. -/
structure UsageStats where
  total : Int
  valid : Int
  rateLimited : Int
  usageExceeded : Int
  expired : Int
  revoked : Int
  disabled : Int
  notFound : Int
deriving DecidableEq, Repr

/-- `emptyStats` from `functions/shared/aggregateStats.ts`. -/
def emptyStats : UsageStats :=
  { total := 0, valid := 0, rateLimited := 0, usageExceeded := 0,
    expired := 0, revoked := 0, disabled := 0, notFound := 0 }

/-- `tallyLog` from `functions/shared/aggregateStats.ts`: bumps `total` and
the counter of the matching outcome code. -/
def tallyLog (stats : UsageStats) (code : String) : UsageStats :=
  let stats := { stats with total := stats.total + 1 }
  if code == "VALID" then { stats with valid := stats.valid + 1 }
  else if code == "RATE_LIMITED" then
    { stats with rateLimited := stats.rateLimited + 1 }
  else if code == "USAGE_EXCEEDED" then
    { stats with usageExceeded := stats.usageExceeded + 1 }
  else if code == "EXPIRED" then { stats with expired := stats.expired + 1 }
  else if code == "REVOKED" then { stats with revoked := stats.revoked + 1 }
  else if code == "DISABLED" then { stats with disabled := stats.disabled + 1 }
  else if code == "NOT_FOUND" then { stats with notFound := stats.notFound + 1 }
  else stats

/-- One entry of the `rollupsByKey` map in `rollupAnalytics` (JS `Map`
iteration preserves insertion order, so the map is an ordered list keyed by
`keyHash`). -/
structure RollupAcc where
  keyHash : String
  «namespace» : String
  stats : UsageStats
deriving DecidableEq, Repr

/-- `key?.namespace || "unknown"` for a log's key hash (an empty namespace
string is falsy in JS and also maps to "unknown"). -/
def namespaceOfHash (st : Store) (keyHash : String) : String :=
  match findKey st.keys keyHash with
  | some k => if k.«namespace» == "" then "unknown" else k.«namespace»
  | none => "unknown"

/-- One iteration of the log loop in `rollupAnalytics`: create the accumulator
entry on first sight of the hash, then tally the outcome code. -/
def upsertTally (acc : List RollupAcc) (ns keyHash code : String) :
    List RollupAcc :=
  if acc.any (fun a => a.keyHash == keyHash) then
    updateFirst (fun a => a.keyHash == keyHash)
      (fun a => { a with stats := tallyLog a.stats code }) acc
  else
    acc ++ [{ keyHash := keyHash, «namespace» := ns,
              stats := tallyLog emptyStats code }]

/-- The upsert loop body of `rollupAnalytics`: additive patch of an existing
(hash, "hour", bucket) rollup, insert otherwise. -/
def upsertRollup (rollups : List AnalyticsRollup) (a : RollupAcc)
    (hourTimestamp : Int) : List AnalyticsRollup :=
  let isMatch := fun (r : AnalyticsRollup) =>
    r.keyHash == a.keyHash && r.period == "hour"
      && r.timestamp == hourTimestamp
  match rollups.find? isMatch with
  | some _ => updateFirst isMatch
      (fun r => { r with
        valid := r.valid + a.stats.valid,
        rateLimited := r.rateLimited + a.stats.rateLimited,
        usageExceeded := r.usageExceeded + a.stats.usageExceeded,
        expired := r.expired + a.stats.expired,
        revoked := r.revoked + a.stats.revoked,
        disabled := r.disabled + a.stats.disabled,
        notFound := r.notFound + a.stats.notFound,
        total := r.total + a.stats.total })
      rollups
  | none => rollups ++
      [{ «namespace» := a.«namespace», keyHash := a.keyHash, period := "hour",
         timestamp := hourTimestamp, valid := a.stats.valid,
         rateLimited := a.stats.rateLimited,
         usageExceeded := a.stats.usageExceeded, expired := a.stats.expired,
         revoked := a.stats.revoked, disabled := a.stats.disabled,
         notFound := a.stats.notFound, total := a.stats.total }]

/-- `rollupAnalytics` from `functions/scheduled/rollup.ts`: collects the logs
with `timestamp > now - 3600000`, groups them by key hash (namespace resolved
from the key table, "unknown" when absent), and upserts the tallies into the
`analyticsRollups` bucket for the hour containing `now`; one audit entry when
anything was processed. -/
def rollupAnalytics (st : Store) (now : Int) : Store :=
  let recentLogs := st.logs.filter (fun l => decide (now - 3600000 < l.timestamp))
  let accs := recentLogs.foldl
    (fun acc l => upsertTally acc (namespaceOfHash st l.keyHash) l.keyHash l.code)
    []
  let hourTimestamp := (Int.fdiv now 3600000) * 3600000
  let rollups' := accs.foldl (fun rs a => upsertRollup rs a hourTimestamp)
    st.rollups
  let st := { st with rollups := rollups' }
  if 0 < accs.length then
    { st with auditLog := st.auditLog ++ [⟨"cron.rollup_analytics", now⟩] }
  else st

/-- `key.indexOf("_")` at the character-list level: position of the first
underscore, `none` for the JS result `-1`. -/
def firstUnderscoreIdx : List Char → Option Nat
  | [] => none
  | c :: cs =>
    if c == '_' then some 0 else (firstUnderscoreIdx cs).map (· + 1)

/-- `generateHint` from `crypto.ts` at the character-list level: keys shorter
than 12 characters are returned unchanged; otherwise the key splits at the
first underscore (`indexOf("_") + 1`; no underscore takes the bare
first4...last4 branch), and a body shorter than 8 characters returns the key
unchanged, else prefix + first4 + "..." + last4. -/
def hintChars (key : List Char) : List Char :=
  if key.length < 12 then key
  else
    match firstUnderscoreIdx key with
    | none => key.take 4 ++ "...".data ++ key.drop (key.length - 4)
    | some i =>
      let prefixEnd := i + 1
      let pfx := key.take prefixEnd
      let remaining := key.drop prefixEnd
      if remaining.length < 8 then key
      else pfx ++ remaining.take 4 ++ "...".data
        ++ remaining.drop (remaining.length - 4)

/-- `generateHint` on strings. -/
def generateHint (key : String) : String :=
  ⟨hintChars key.data⟩

/-- A plain enabled key with no policies, used to instantiate theorems. -/
def sampleKey : KeyRecord :=
  { id := 1, hash := "h1", «namespace» := "default", ownerId := "owner1",
    name := "k", createdAt := 0, updatedAt := 0, expires := none,
    remaining := none, refill := none, ratelimit := none, enabled := true,
    revokedAt := none, rotationGraceEnd := none, permissionIds := [],
    roleIds := [] }

/-- The empty database, used to instantiate theorems. -/
def emptyStore : Store :=
  { keys := [], buckets := [], overrides := [], logs := [], roles := [],
    permissions := [], rollups := [], auditLog := [] }

/-- `remaining`, when present, is a nonnegative whole number (denominator 1). -/
def remWhole (k : KeyRecord) : Bool :=
  match k.remaining with
  | some r => decide (0 ≤ r) && decide (r.den = 1)
  | none => true

/-- The refill amount is a nonnegative whole number when a refill policy is
present. -/
def refillWhole (k : KeyRecord) : Bool :=
  match k.refill with
  | some rf => decide (0 ≤ rf.amount) && decide (rf.amount.den = 1)
  | none => true

/-- Bucket store after `n` rate-limit calls for one (identifier, namespace)
pair starting from no buckets, the `i`-th call at time `τ i`. -/
def bucketsAfter (identifier ns : String) (limit duration : Int)
    (τ : Nat → Int) : Nat → List RateLimitBucket
  | 0 => []
  | n + 1 =>
    (checkAndUpdateRateLimit (bucketsAfter identifier ns limit duration τ n)
      identifier ns limit duration (τ n)).2

/-- Result of the `n`-th (0-based) rate-limit call in that sequence. -/
def nthCallResult (identifier ns : String) (limit duration : Int)
    (τ : Nat → Int) (n : Nat) : RateLimitResult :=
  (checkAndUpdateRateLimit (bucketsAfter identifier ns limit duration τ n)
    identifier ns limit duration (τ n)).1

/-- Store with a single verification log inside the hour bucket starting at
3600000, used to exhibit the rollup double-count. -/
def rollupStore : Store :=
  { emptyStore with logs := [⟨"h1", 3601000, true, "VALID", none, none⟩] }

/-- A store holding a key that is both revoked and disabled. -/
def ic1Store : Store :=
  { emptyStore with
      keys := [{ sampleKey with revokedAt := some 10, enabled := false }] }

/-- A store holding a key that is both disabled and past its expiry. -/
def ic1Store2 : Store :=
  { emptyStore with
      keys := [{ sampleKey with enabled := false, expires := some 1 }] }

/-- A store holding a key created with remaining = 2 and no other policy. -/
def ic3Store : Store :=
  { emptyStore with keys := [{ sampleKey with remaining := some 2 }] }

theorem firstUnderscoreIdx_append (ys body : List Char)
    (hys : ∀ c ∈ ys, ¬ c = '_') :
    firstUnderscoreIdx (ys ++ '_' :: body) = some ys.length := by
  induction ys with
  | nil => simp [firstUnderscoreIdx]
  | cons c cs ih =>
    have hc : ¬ c = '_' := hys c (by simp)
    have ih' := ih (fun d hd => hys d (by simp [hd]))
    simp [firstUnderscoreIdx, hc, ih']

/-- C9 (counterexample): the plaintext "a_01234567" has the prefix "a_"
(ending in the separator) and the 8-character body "01234567", yet the hint
function returns the plaintext unchanged instead of the claimed
prefix + first4 + "..." + last4. -/
theorem generateHint_body8_counterexample :
    ("01234567" : String).length = 8 ∧
      generateHint ("a_" ++ "01234567") = "a_01234567" ∧
      ¬ generateHint ("a_" ++ "01234567") = "a_" ++ "0123" ++ "..." ++ "4567" := by
  refine ⟨by decide, by decide, by decide⟩

/-- C9 (amended): for a plaintext `prefix ++ body` whose prefix is `ys ++ '_'`
with no earlier underscore, the hint is the plaintext unchanged whenever the
whole plaintext is shorter than 12 characters or the body is shorter than 8
characters; when the plaintext has at least 12 characters and the body at
least 8, the hint is prefix, first 4 of the body, "...", last 4 of the body,
concatenated in that order. -/
theorem generateHint_spec (ys body : List Char)
    (hys : ∀ c ∈ ys, ¬ c = '_') :
    ((ys ++ '_' :: body).length < 12 →
      hintChars (ys ++ '_' :: body) = ys ++ '_' :: body) ∧
    (body.length < 8 →
      hintChars (ys ++ '_' :: body) = ys ++ '_' :: body) ∧
    (12 ≤ (ys ++ '_' :: body).length → 8 ≤ body.length →
      hintChars (ys ++ '_' :: body)
        = (ys ++ ['_']) ++ (body.take 4 ++ ("...".data
            ++ body.drop (body.length - 4)))) := by
  have hidx := firstUnderscoreIdx_append ys body hys
  have hkey : ys ++ '_' :: body = (ys ++ ['_']) ++ body := by simp
  have hlenp : (ys ++ ['_']).length = ys.length + 1 := by simp
  have htake : (ys ++ '_' :: body).take (ys.length + 1) = ys ++ ['_'] := by
    rw [hkey, List.take_left' hlenp]
  have hdrop : (ys ++ '_' :: body).drop (ys.length + 1) = body := by
    rw [hkey, List.drop_left' hlenp]
  refine ⟨fun h12 => ?_, fun h8 => ?_, fun h12 h8 => ?_⟩
  · unfold hintChars
    rw [if_pos h12]
  · by_cases h12 : (ys ++ '_' :: body).length < 12
    · unfold hintChars
      rw [if_pos h12]
    · unfold hintChars
      rw [if_neg h12, hidx]
      simp only [htake, hdrop]
      rw [if_pos h8]
  · unfold hintChars
    rw [if_neg (by omega), hidx]
    simp only [htake, hdrop]
    rw [if_neg (by omega)]
    simp [List.append_assoc]

/-- C9, witness for the amended theorem at a concrete key. -/
theorem generateHint_spec_witness :
    hintChars ("sk".data ++ '_' :: "live12345".data)
      = ("sk".data ++ ['_']) ++ ("live12345".data.take 4 ++ ("...".data
          ++ "live12345".data.drop ("live12345".data.length - 4))) :=
  (generateHint_spec "sk".data "live12345".data (by decide)).2.2
    (by decide) (by decide)

/-- C10: a refill policy whose interval string is not one of "hourly",
"daily", "weekly", "monthly" (which `create` accepts, its interval argument
being validated only as a string) makes `applyRefillIfNeeded` a complete
no-op for every current time: the key record and the store are unchanged and
no error is raised. -/
theorem refill_unknown_interval_noop (st : Store) (k : KeyRecord)
    (rf : RefillPolicy) (now : Int) (hrf : k.refill = some rf)
    (h1 : ¬ rf.interval = "hourly") (h2 : ¬ rf.interval = "daily")
    (h3 : ¬ rf.interval = "weekly") (h4 : ¬ rf.interval = "monthly") :
    applyRefillIfNeeded st k now = (k, st) := by
  have hint : refillIntervalMs rf.interval = none := by
    simp [refillIntervalMs, h1, h2, h3, h4]
  cases hrem : k.remaining with
  | none => simp [applyRefillIfNeeded, hrf, hrem]
  | some r => simp [applyRefillIfNeeded, hrf, hrem, hint]

/-- C7: running `rollupAnalytics` twice at the same instant over a store with
a single raw verification log leaves the hour bucket with total 2, while the
raw logs in that bucket's window count 1 — re-processing double-counts, so
totals after a second run do not equal the counts derivable from raw logs. -/
theorem rollupAnalytics_double_counts :
    ((rollupAnalytics rollupStore 3605000).rollups.map
        AnalyticsRollup.total = [1]) ∧
    ((rollupAnalytics (rollupAnalytics rollupStore 3605000) 3605000).rollups.map
        AnalyticsRollup.total = [2]) ∧
    ((rollupStore.logs.filter (fun l =>
        decide (3600000 ≤ l.timestamp) && decide (l.timestamp < 7200000))).length
      = 1) := by
  refine ⟨by decide, by decide, by decide⟩

/-- C10, witness: a "yearly" interval never refills. -/
theorem refill_unknown_interval_noop_witness :
    applyRefillIfNeeded emptyStore
      { sampleKey with
          refill := some ⟨100, "yearly", 0⟩, remaining := some 3 }
      999999999
      = ({ sampleKey with
            refill := some ⟨100, "yearly", 0⟩, remaining := some 3 },
         emptyStore) :=
  refill_unknown_interval_noop emptyStore _ ⟨100, "yearly", 0⟩ 999999999 rfl
    (by decide) (by decide) (by decide) (by decide)

/-- C8: `revoke`, `update` and `rotate` with a keyId matching no stored key,
and `checkRateLimit` / `setRateLimitOverride` with non-positive limit or
duration, each produce a thrown error with a descriptive message and leave
the store exactly as it was: no record inserted, patched or deleted, no
verification log written, no rate-limit bucket created or incremented. -/
theorem operational_errors_atomic (st : Store) (keyId : Nat)
    (soft : Option Bool) (args : UpdateArgs) (g : Option Int)
    (freshHash : String) (newId : Nat) (identifier ns : String)
    (limit duration now : Int) :
    (getKeyById st.keys keyId = none →
      revoke st keyId soft now = (.error "Key not found", st) ∧
      rotate st keyId g freshHash newId now = (.error "Key not found", st)) ∧
    (getKeyById st.keys args.keyId = none →
      update st args now = (.error "Key not found", st)) ∧
    (limit ≤ 0 →
      checkRateLimit st identifier ns limit duration now
        = (.error ("limit must be positive, got " ++ toString limit), st) ∧
      setRateLimitOverride st keyId limit duration now
        = (.error ("limit must be positive, got " ++ toString limit), st)) ∧
    (0 < limit → duration ≤ 0 →
      checkRateLimit st identifier ns limit duration now
        = (.error ("duration must be positive, got " ++ toString duration), st) ∧
      setRateLimitOverride st keyId limit duration now
        = (.error ("duration must be positive, got " ++ toString duration), st)) := by
  refine ⟨fun hnone => ⟨?_, ?_⟩, fun hnone => ?_, fun hlim => ⟨?_, ?_⟩,
    fun hlim hdur => ⟨?_, ?_⟩⟩
  · simp [revoke, hnone]
  · simp [rotate, hnone]
  · simp [update, hnone]
  · simp [checkRateLimit, assertPositive, hlim]
  · simp [setRateLimitOverride, assertPositive, hlim]
  · simp [checkRateLimit, assertPositive, hdur, not_le.mpr hlim]
  · simp [setRateLimitOverride, assertPositive, hdur, not_le.mpr hlim]

/-- C8, witness: the empty store has no key 7, and limit −1 / duration 0 are
rejected. -/
theorem operational_errors_atomic_witness :
    (revoke emptyStore 7 none 5 = (.error "Key not found", emptyStore) ∧
      rotate emptyStore 7 none "h2" 8 5 = (.error "Key not found", emptyStore)) ∧
    (update emptyStore ⟨7, none, none, none, none, none⟩ 5
      = (.error "Key not found", emptyStore)) ∧
    (checkRateLimit emptyStore "a" "ns" (-1) 60000 5
      = (.error "limit must be positive, got -1", emptyStore)) ∧
    (checkRateLimit emptyStore "a" "ns" 3 0 5
      = (.error "duration must be positive, got 0", emptyStore)) := by
  have h := operational_errors_atomic emptyStore 7 none
    ⟨7, none, none, none, none, none⟩ none "h2" 8 "a" "ns"
  refine ⟨(h (-1) 60000 5).1 (by decide),
    (h (-1) 60000 5).2.1 (by decide),
    ?_, ?_⟩
  · exact ((h (-1) 60000 5).2.2.1 (by decide)).1
  · exact ((h 3 0 5).2.2.2 (by decide) (by decide)).1

theorem find?_updateFirst {α : Type} (p : α → Bool) (f : α → α)
    (hf : ∀ a, p a = true → p (f a) = true) :
    ∀ l : List α, (updateFirst p f l).find? p = (l.find? p).map f := by
  intro l
  induction l with
  | nil => simp [updateFirst]
  | cons x xs ih =>
    cases hx : p x with
    | true => simp [updateFirst, hx, List.find?, hf x hx]
    | false => simp [updateFirst, hx, List.find?, ih]

theorem bucketsAfter_inv (identifier ns : String) (limit duration : Int)
    (τ : Nat → Int) (hlim : 1 ≤ limit) (hwin : ∀ i, τ i ≤ τ 0 + duration) :
    ∀ n, bucketsAfter identifier ns limit duration τ (n + 1)
      = [⟨identifier, ns, τ 0,
          if (n : Int) + 1 ≤ limit then (n : Int) + 1 else limit,
          limit, duration⟩] := by
  intro n
  induction n with
  | zero =>
    simp [bucketsAfter, checkAndUpdateRateLimit, findBucket, hlim]
  | succ n ih =>
    rw [show n + 1 + 1 = (n + 1) + 1 from rfl, bucketsAfter, ih]
    have h1 : ¬ (τ 0 < τ (n + 1) - duration) := by
      have := hwin (n + 1)
      omega
    by_cases hc : (n : Int) + 1 ≤ limit
    · rw [if_pos hc]
      by_cases he : limit ≤ (n : Int) + 1
      · have hnext : ¬ ((n : Int) + 1 + 1 ≤ limit) := by omega
        simp [checkAndUpdateRateLimit, findBucket, List.find?, h1, he]
        omega
      · have hnext : (n : Int) + 1 + 1 ≤ limit := by omega
        simp [checkAndUpdateRateLimit, findBucket, List.find?, updateFirst,
          h1, he, hnext]
    · rw [if_neg hc]
      have he : limit ≤ limit := le_refl _
      have hnext : ¬ ((n : Int) + 1 + 1 ≤ limit) := by omega
      simp [checkAndUpdateRateLimit, findBucket, List.find?, h1, hnext]


/-- C4: the sliding-window counter (1) on a missing bucket returns allowed
with remaining = limit − 1 and reset = now + duration and creates the bucket
with count 1; (2) on a bucket whose window start is older than now − duration
it returns the same and the bucket's count becomes 1 with window start now;
(3) for a sequence of calls inside one window starting fresh, the first
`limit` calls are allowed, and (4) every further in-window call returns
not-allowed with remaining 0 and reset = window start + duration without
touching the bucket. -/
theorem checkAndConsume_window (identifier ns : String) (limit duration : Int)
    (τ : Nat → Int) (hlim : 1 ≤ limit) (hwin : ∀ i, τ i ≤ τ 0 + duration) :
    (∀ buckets now, findBucket buckets identifier ns = none →
      checkAndUpdateRateLimit buckets identifier ns limit duration now
        = (⟨true, limit - 1, now + duration⟩,
           buckets ++ [⟨identifier, ns, now, 1, limit, duration⟩])) ∧
    (∀ buckets now b, findBucket buckets identifier ns = some b →
      b.windowStart < now - duration →
      (checkAndUpdateRateLimit buckets identifier ns limit duration now).1
        = ⟨true, limit - 1, now + duration⟩ ∧
      findBucket
          (checkAndUpdateRateLimit buckets identifier ns limit duration now).2
          identifier ns
        = some { b with windowStart := now, count := 1 }) ∧
    (∀ i : Nat, (i : Int) < limit →
      nthCallResult identifier ns limit duration τ i
        = ⟨true, limit - (i : Int) - 1, τ 0 + duration⟩) ∧
    (∀ i : Nat, limit ≤ (i : Int) →
      nthCallResult identifier ns limit duration τ i
        = ⟨false, 0, τ 0 + duration⟩ ∧
      bucketsAfter identifier ns limit duration τ (i + 1)
        = bucketsAfter identifier ns limit duration τ i) := by
  refine ⟨fun buckets now h => ?_, fun buckets now b hfind hroll => ?_,
    fun i hi => ?_, fun i hi => ?_⟩
  · simp [checkAndUpdateRateLimit, h]
  · constructor
    · simp [checkAndUpdateRateLimit, hfind, hroll]
    · have hstep : (checkAndUpdateRateLimit buckets identifier ns limit
          duration now).2
          = updateFirst
              (fun x => x.keyOrOwnerId == identifier && x.«namespace» == ns)
              (fun x => { x with windowStart := now, count := 1 }) buckets := by
        simp [checkAndUpdateRateLimit, hfind, hroll]
      rw [hstep]
      unfold findBucket
      rw [find?_updateFirst _ _ (fun a ha => by
        simpa using ha)]
      rw [show buckets.find?
          (fun x => x.keyOrOwnerId == identifier && x.«namespace» == ns)
          = some b from hfind]
      rfl
  · cases i with
    | zero =>
      simp [nthCallResult, bucketsAfter, checkAndUpdateRateLimit, findBucket]
    | succ m =>
      have hm : (m : Int) + 1 ≤ limit := by push_cast at hi; omega
      have h1 : ¬ (τ 0 < τ (m + 1) - duration) := by
        have := hwin (m + 1)
        omega
      have hlt : ¬ (limit ≤ (m : Int) + 1) := by push_cast at hi; omega
      rw [nthCallResult, bucketsAfter_inv identifier ns limit duration τ hlim hwin m]
      simp [checkAndUpdateRateLimit, findBucket, List.find?, h1, hm, hlt]
  · cases i with
    | zero =>
      exfalso
      push_cast at hi
      omega
    | succ m =>
      have h1 : ¬ (τ 0 < τ (m + 1) - duration) := by
        have := hwin (m + 1)
        omega
      have hge : limit ≤ (m : Int) + 1 := by push_cast at hi; omega
      have hden : limit ≤ (if (m : Int) + 1 ≤ limit then (m : Int) + 1
          else limit) := by
        by_cases hmc : (m : Int) + 1 ≤ limit
        · rw [if_pos hmc]; exact hge
        · rw [if_neg hmc]
      constructor
      · rw [nthCallResult,
          bucketsAfter_inv identifier ns limit duration τ hlim hwin m]
        simp [checkAndUpdateRateLimit, findBucket, List.find?, h1, hden]
      · rw [show m + 1 + 1 = (m + 1) + 1 from rfl, bucketsAfter,
          bucketsAfter_inv identifier ns limit duration τ hlim hwin m]
        simp [checkAndUpdateRateLimit, findBucket, List.find?, h1, hden]



/-- C4, witness: limit 2, duration 10, all calls at time 5 — calls 0 and 1
allowed with remaining 1 and 0, call 2 denied with remaining 0 and reset 15. -/
theorem checkAndConsume_window_witness :
    nthCallResult "a" "ns" 2 10 (fun _ => 5) 0 = ⟨true, 1, 15⟩ ∧
    nthCallResult "a" "ns" 2 10 (fun _ => 5) 1 = ⟨true, 0, 15⟩ ∧
    nthCallResult "a" "ns" 2 10 (fun _ => 5) 2 = ⟨false, 0, 15⟩ := by
  have h := checkAndConsume_window "a" "ns" 2 10 (fun _ => 5) (by decide)
    (fun i => show (5 : Int) ≤ 5 + 10 by decide)
  refine ⟨?_, ?_, (h.2.2.2 2 (by decide)).1⟩
  · have := h.2.2.1 0 (by decide)
    simpa using this
  · have := h.2.2.1 1 (by decide)
    simpa using this

theorem applyRefill_logs (st : Store) (k : KeyRecord) (now : Int) :
    ((applyRefillIfNeeded st k now).2).logs = st.logs := by
  unfold applyRefillIfNeeded
  rcases k.refill with _ | rf <;> rcases k.remaining with _ | r <;> simp
  rcases refillIntervalMs rf.interval with _ | iv <;> simp
  split <;> simp


theorem keyLevel_logs (st : Store) (k : KeyRecord) (hash : String) (now : Int) :
    ((keyLevelRateLimit st k hash now).2).logs = st.logs := by
  unfold keyLevelRateLimit
  rcases k.ratelimit with _ | rl <;> simp
  split <;> simp


theorem verifySuccessTail_spec (st : Store) (k : KeyRecord) (hash : String)
    (now : Int) :
    (verifySuccessTail st k hash now).1.valid = true ∧
    (verifySuccessTail st k hash now).1.code = "VALID" ∧
    (verifySuccessTail st k hash now).2.logs
      = st.logs ++ [⟨hash, now, true, "VALID",
          k.remaining.map (fun r => r - 1), none⟩] := by
  unfold verifySuccessTail logVerification
  rcases k.remaining with _ | r <;> simp


/-- C1: for every key record found by digest and every current time, the
validity checks run in the fixed order revoked, disabled, expired, rotation
grace: the first truthy check determines the outcome code and the verify
mutation returns immediately with empty permissions and roles, the store
extended only by the one log entry (no refill, no credit decrement, no
rate-limit bucket touch, no permission resolution).  In particular a key that
is both revoked and disabled yields REVOKED (conjunct 1, which ignores
`enabled`), and a disabled key past its expiry yields DISABLED (conjunct 2,
which ignores `expires`). -/
theorem verify_validity_precedence (st : Store) (hash : String) (now : Int)
    (k : KeyRecord) (hfind : findKey st.keys hash = some k) :
    (jsTruthy k.revokedAt = true →
      verify st hash now
        = (⟨false, "REVOKED", some k.id, some k.ownerId, none, none, [], [],
            some "API key has been revoked"⟩,
           logVerification st hash now false "REVOKED" none none)) ∧
    (jsTruthy k.revokedAt = false → k.enabled = false →
      verify st hash now
        = (⟨false, "DISABLED", some k.id, some k.ownerId, none, none, [], [],
            some "API key is disabled"⟩,
           logVerification st hash now false "DISABLED" none none)) ∧
    (jsTruthy k.revokedAt = false → k.enabled = true →
      (jsTruthy k.expires && decide (k.expires.getD 0 < now)) = true →
      verify st hash now
        = (⟨false, "EXPIRED", some k.id, some k.ownerId, none, none, [], [],
            some "API key has expired"⟩,
           logVerification st hash now false "EXPIRED" none none)) ∧
    (jsTruthy k.revokedAt = false → k.enabled = true →
      (jsTruthy k.expires && decide (k.expires.getD 0 < now)) = false →
      (jsTruthy k.rotationGraceEnd
        && decide (k.rotationGraceEnd.getD 0 < now)) = true →
      verify st hash now
        = (⟨false, "ROTATION_GRACE_EXPIRED", some k.id, some k.ownerId, none,
            none, [], [], some "API key rotation grace period has expired"⟩,
           logVerification st hash now false "ROTATION_GRACE_EXPIRED" none
             none)) := by
  refine ⟨fun h1 => ?_, fun h1 h2 => ?_, fun h1 h2 h3 => ?_,
    fun h1 h2 h3 h4 => ?_⟩
  · have hc : checkKeyValidity k now
        = .fail "REVOKED" "API key has been revoked" := by
      simp [checkKeyValidity, h1]
    simp [verify, hfind, hc]
  · have hc : checkKeyValidity k now
        = .fail "DISABLED" "API key is disabled" := by
      simp [checkKeyValidity, h1, h2]
    simp [verify, hfind, hc]
  · have hc : checkKeyValidity k now
        = .fail "EXPIRED" "API key has expired" := by
      simp [checkKeyValidity, h1, h2, h3]
    simp [verify, hfind, hc]
  · have hc : checkKeyValidity k now
        = .fail "ROTATION_GRACE_EXPIRED"
            "API key rotation grace period has expired" := by
      simp [checkKeyValidity, h1, h2, h3, h4]
    simp [verify, hfind, hc]


/-- C1, witness: a revoked-and-disabled key verifies as REVOKED; a
disabled-and-expired key verifies as DISABLED. -/
theorem verify_validity_precedence_witness :
    verify
ic1Store "h1" 50
      = (⟨false, "REVOKED", some 1, some "owner1", none, none, [], [],
          some "API key has been revoked"⟩,
         logVerification ic1Store "h1" 50 false "REVOKED" none none) ∧
    verify ic1Store2 "h1" 50
      = (⟨false, "DISABLED", some 1, some "owner1", none, none, [], [],
          some "API key is disabled"⟩,
         logVerification ic1Store2 "h1" 50 false "DISABLED" none none) := by
  constructor
  · exact (verify_validity_precedence _ "h1" 50
      { sampleKey with revokedAt := some 10, enabled := false }
      (by decide)).1 (by decide)
  · exact (verify_validity_precedence _ "h1" 50
      { sampleKey with enabled := false, expires := some 1 }
      (by decide)).2.1 (by decide) (by decide)


/-- C5: every call to verify — for every digest and every store state,
including the NOT_FOUND branch and every other failure branch — appends
exactly one verification log entry, recording the digest, the timestamp, the
success flag and the outcome code of the returned result. -/
theorem verify_logs_exactly_one (st : Store) (hash : String) (now : Int) :
    ∃ e, (verify st hash now).2.logs = st.logs ++ [e] ∧
      e.keyHash = hash ∧ e.timestamp = now ∧
      e.success = (verify st hash now).1.valid ∧
      e.code = (verify st hash now).1.code := by
  rcases hf : findKey st.keys hash with _ | k
  · exact ⟨⟨hash, now, false, "NOT_FOUND", none, none⟩,
      by simp [verify, hf, logVerification]⟩
  · rcases hc : checkKeyValidity k now with _ | ⟨code, message⟩
    · rcases hr : applyRefillIfNeeded st k now with ⟨k2, st2⟩
      have hlog2 : st2.logs = st.logs := by
        have h := applyRefill_logs st k now
        rw [hr] at h
        exact h
      by_cases hu : (match k2.remaining with
          | some r => decide (r ≤ 0) | none => false) = true
      · exact ⟨⟨hash, now, false, "USAGE_EXCEEDED", none, none⟩,
          by simp [verify, hf, hc, hr, hu, logVerification, hlog2]⟩
      · rcases hkl : keyLevelRateLimit st2 k2 hash now with ⟨orr, st3⟩
        have hlog3 : st3.logs = st2.logs := by
          have h := keyLevel_logs st2 k2 hash now
          rw [hkl] at h
          exact h
        cases orr with
        | some rr =>
          exact ⟨⟨hash, now, false, "RATE_LIMITED", none, some rr.1⟩,
            by simp [verify, hf, hc, hr, hu, hkl, logVerification,
              rateLimitedResult, hlog3, hlog2]⟩
        | none =>
          have hs := verifySuccessTail_spec st3 k2 hash now
          refine ⟨⟨hash, now, true, "VALID",
            k2.remaining.map (fun r => r - 1), none⟩, ?_⟩
          simp [verify, hf, hc, hr, hu, hkl, hs.1, hs.2.1, hs.2.2, hlog3,
            hlog2]
    · exact ⟨⟨hash, now, false, code, none, none⟩,
        by simp [verify, hf, hc, logVerification]⟩


theorem verify_single_key_step (st : Store) (k : KeyRecord) (r : ℚ) (t : Int)
    (hkeys : st.keys = [k]) (hrev : k.revokedAt = none)
    (hen : k.enabled = true) (hexp : k.expires = none)
    (hrot : k.rotationGraceEnd = none) (href : k.refill = none)
    (hrl : k.ratelimit = none) (hrem : k.remaining = some r) :
    (0 < r →
      (verify st k.hash t).1.valid = true ∧
      (verify st k.hash t).1.code = "VALID" ∧
      (verify st k.hash t).1.remaining = some (r - 1) ∧
      (verify st k.hash t).2.keys
        = [{ k with remaining := some (r - 1), updatedAt := t }]) ∧
    (r ≤ 0 →
      (verify st k.hash t).1.valid = false ∧
      (verify st k.hash t).1.code = "USAGE_EXCEEDED" ∧
      (verify st k.hash t).1.remaining = some 0 ∧
      (verify st k.hash t).2.keys = st.keys) := by
  have hfind : findKey st.keys k.hash = some k := by
    simp [findKey, hkeys, List.find?]
  have hc : checkKeyValidity k t = .ok := by
    simp [checkKeyValidity, jsTruthy, hrev, hen, hexp, hrot]
  have hr : applyRefillIfNeeded st k t = (k, st) := by
    simp [applyRefillIfNeeded, href]
  constructor
  · intro hpos
    have hgate : ¬ ((match k.remaining with
        | some x => decide (x ≤ 0) | none => false) = true) := by
      simp [hrem]
      linarith
    have hkl : keyLevelRateLimit st k k.hash t = (none, st) := by
      simp [keyLevelRateLimit, hrl]
    have hv : verify st k.hash t = verifySuccessTail st k k.hash t := by
      simp [verify, hfind, hc, hr, hgate, hkl]
    rw [hv]
    refine ⟨?_, ?_, ?_, ?_⟩ <;>
      simp [verifySuccessTail, hrem, logVerification, hkeys, patchKeys]
  · intro hneg
    have hgate : (match k.remaining with
        | some x => decide (x ≤ 0) | none => false) = true := by
      simp [hrem]
      linarith
    refine ⟨?_, ?_, ?_, ?_⟩ <;>
      simp [verify, hfind, hc, hr, hgate, logVerification]


/-- C3: a key with remaining = 2 and no other policies (no refill, no
ratelimit, no expiry, enabled, not revoked) verifies VALID on the first two
calls — the stored remaining dropping to 1 and then 0, one decrement per
VALID outcome — and the third call returns USAGE_EXCEEDED with remaining = 0
in the response while the stored remaining stays 0 (no decrement on the
USAGE_EXCEEDED outcome). -/
theorem verify_credit_trace (k : KeyRecord) (hrev : k.revokedAt = none)
    (hen : k.enabled = true) (hexp : k.expires = none)
    (hrot : k.rotationGraceEnd = none) (href : k.refill = none)
    (hrl : k.ratelimit = none) (hrem : k.remaining = some 2)
    (st0 : Store) (hst0 : st0.keys = [k]) (t1 t2 t3 : Int)
    (o1 o2 o3 : VerificationResult × Store)
    (ho1 : o1 = verify st0 k.hash t1)
    (ho2 : o2 = verify o1.2 k.hash t2)
    (ho3 : o3 = verify o2.2 k.hash t3) :
    o1.1.valid = true ∧ o1.1.code = "VALID" ∧
    o1.2.keys.map KeyRecord.remaining = [some 1] ∧
    o2.1.valid = true ∧ o2.1.code = "VALID" ∧
    o2.2.keys.map KeyRecord.remaining = [some 0] ∧
    o3.1.valid = false ∧ o3.1.code = "USAGE_EXCEEDED" ∧
    o3.1.remaining = some 0 ∧
    o3.2.keys.map KeyRecord.remaining = [some 0] := by
  subst ho1 ho2 ho3
  obtain ⟨hv1, hc1, hr1, hk1⟩ :=
    (verify_single_key_step st0 k 2 t1 hst0 hrev hen hexp hrot href hrl
      hrem).1 (by norm_num)
  obtain ⟨hv2, hc2, hr2, hk2⟩ :=
    (verify_single_key_step (verify st0 k.hash t1).2
      { k with remaining := some (2 - 1), updatedAt := t1 } (2 - 1) t2 hk1
      hrev hen hexp hrot href hrl rfl).1 (by norm_num)
  obtain ⟨hv3, hc3, hr3, hk3⟩ :=
    (verify_single_key_step (verify (verify st0 k.hash t1).2 k.hash t2).2
      { { k with remaining := some (2 - 1), updatedAt := t1 } with
          remaining := some (2 - 1 - 1), updatedAt := t2 } (2 - 1 - 1) t3
      hk2 hrev hen hexp hrot href hrl rfl).2 (by norm_num)
  refine ⟨hv1, hc1, ?_, hv2, hc2, ?_, hv3, hc3, hr3, ?_⟩
  · rw [hk1]
    norm_num
  · rw [hk2]
    norm_num
  · rw [hk3, hk2]
    norm_num


/-- C3, witness at a concrete store and concrete times. -/
theorem verify_credit_trace_witness :
    (verify ic3Store "h1" 10).1.code = "VALID" ∧
    (verify (verify ic3Store "h1" 10).2 "h1" 11).1.code = "VALID" ∧
    (verify (verify (verify ic3Store "h1" 10).2 "h1" 11).2 "h1" 12).1.code
      = "USAGE_EXCEEDED" ∧
    (verify (verify (verify ic3Store "h1" 10).2 "h1" 11).2 "h1" 12).1.remaining
      = some 0 := by
  have h := verify_credit_trace { sampleKey with remaining := some 2 } rfl rfl
    rfl rfl rfl rfl rfl ic3Store rfl 10 11 12
    (verify ic3Store "h1" 10)
    (verify (verify ic3Store "h1" 10).2 "h1" 11)
    (verify (verify (verify ic3Store "h1" 10).2 "h1" 11).2 "h1" 12)
    rfl rfl rfl
  exact ⟨h.2.1, h.2.2.2.2.1, h.2.2.2.2.2.2.2.1, h.2.2.2.2.2.2.2.2.1⟩


theorem whole_decrement (r : ℚ) (hd : r.den = 1) (hpos : 0 < r) :
    0 ≤ r - 1 ∧ (r - 1).den = 1 := by
  have hnum : (r.num : ℚ) = r := (Rat.den_eq_one_iff r).mp hd
  have hnpos : 0 < r.num := Rat.num_pos.mpr hpos
  constructor
  · rw [← hnum]
    have h1 : (1 : ℚ) ≤ (r.num : ℚ) := by exact_mod_cast hnpos
    linarith
  · rw [← hnum, show ((r.num : ℚ) - 1) = ((r.num - 1 : ℤ) : ℚ) by push_cast; ring]
    exact Rat.den_intCast _

theorem all_remWhole_patch (keys : List KeyRecord) (id : Nat)
    (f : KeyRecord → KeyRecord) (h : keys.all remWhole = true)
    (hf : ∀ x, remWhole (f x) = true) :
    (patchKeys keys id f).all remWhole = true := by
  rw [List.all_eq_true] at h ⊢
  intro y hy
  simp only [patchKeys, List.mem_map] at hy
  rcases hy with ⟨x, hx, rfl⟩
  split
  · exact hf x
  · exact h x hx

theorem applyRefill_remWhole (st : Store) (k : KeyRecord) (now : Int)
    (hkmem : k ∈ st.keys) (hall : st.keys.all remWhole = true)
    (hrfl : st.keys.all refillWhole = true) :
    ((applyRefillIfNeeded st k now).2).keys.all remWhole = true ∧
    remWhole (applyRefillIfNeeded st k now).1 = true := by
  have hk : remWhole k = true := List.all_eq_true.mp hall k hkmem
  rcases href : k.refill with _ | rf
  · have he : applyRefillIfNeeded st k now = (k, st) := by
      simp [applyRefillIfNeeded, href]
    rw [he]
    exact ⟨hall, hk⟩
  · rcases hrem : k.remaining with _ | r
    · have he : applyRefillIfNeeded st k now = (k, st) := by
        simp [applyRefillIfNeeded, href, hrem]
      rw [he]
      exact ⟨hall, hk⟩
    · rcases hiv : refillIntervalMs rf.interval with _ | iv
      · have he : applyRefillIfNeeded st k now = (k, st) := by
          simp [applyRefillIfNeeded, href, hrem, hiv]
        rw [he]
        exact ⟨hall, hk⟩
      · by_cases hel : iv ≤ now - rf.lastRefill
        · have hamount : (0 : ℚ) ≤ rf.amount ∧ rf.amount.den = 1 := by
            have h := List.all_eq_true.mp hrfl k hkmem
            simp [refillWhole, href] at h
            exact h
          have hwhole : ∀ x : KeyRecord, remWhole { k with
              remaining := some rf.amount
              refill := some { rf with lastRefill := now }
              updatedAt := now } = true := by
            intro x
            simp [remWhole, hamount.1, hamount.2]
          have he2 : (applyRefillIfNeeded st k now).2
              = { st with keys := patchKeys st.keys k.id (fun _ => { k with
                  remaining := some rf.amount
                  refill := some { rf with lastRefill := now }
                  updatedAt := now }) } := by
            simp [applyRefillIfNeeded, href, hrem, hiv, hel]
          have he1 : (applyRefillIfNeeded st k now).1
              = { k with
                  remaining := some rf.amount
                  refill := some { rf with lastRefill := now }
                  updatedAt := now } := by
            simp [applyRefillIfNeeded, href, hrem, hiv, hel]
          constructor
          · rw [he2]
            exact all_remWhole_patch _ _ _ hall (fun x => hwhole x)
          · rw [he1]
            exact hwhole k
        · have he : applyRefillIfNeeded st k now = (k, st) := by
            simp [applyRefillIfNeeded, href, hrem, hiv, hel]
          rw [he]
          exact ⟨hall, hk⟩

theorem keyLevel_keys (st : Store) (k : KeyRecord) (hash : String)
    (now : Int) :
    ((keyLevelRateLimit st k hash now).2).keys = st.keys := by
  unfold keyLevelRateLimit
  rcases k.ratelimit with _ | rl <;> simp
  split <;> simp

theorem verifySuccessTail_remWhole (st : Store) (k : KeyRecord)
    (hash : String) (now : Int) (hall : st.keys.all remWhole = true)
    (hk : remWhole k = true)
    (hgate : (match k.remaining with
      | some r => decide (r ≤ 0) | none => false) = false) :
    ((verifySuccessTail st k hash now).2).keys.all remWhole = true := by
  unfold verifySuccessTail
  cases hrem : k.remaining with
  | none => simpa [logVerification] using hall
  | some r =>
    rw [hrem] at hgate
    simp at hgate
    have hrw : 0 ≤ r ∧ r.den = 1 := by
      simp [remWhole, hrem] at hk
      exact hk
    have hdec := whole_decrement r hrw.2 hgate
    have hpatch := all_remWhole_patch st.keys k.id
      (fun x => { x with remaining := some (r - 1), updatedAt := now }) hall
      (fun x => by simp [remWhole, hdec.1, hdec.2])
    simpa [logVerification] using hpatch

/-- C6 (amended): when every stored key's `remaining` (when present) and
refill amount (when a refill policy is present) is a nonnegative whole
number, every verify call keeps every stored `remaining` a nonnegative whole
number: the orchestrator short-circuits with USAGE_EXCEEDED on remaining ≤ 0
before any decrement and only decrements by 1 from whole values ≥ 1. -/
theorem verify_remaining_nonneg (st : Store) (hash : String) (now : Int)
    (hall : st.keys.all remWhole = true)
    (hrfl : st.keys.all refillWhole = true) :
    ((verify st hash now).2.keys.all remWhole) = true := by
  rcases hf : findKey st.keys hash with _ | k
  · simpa [verify, hf, logVerification] using hall
  · have hkmem : k ∈ st.keys := List.mem_of_find?_eq_some hf
    rcases hc : checkKeyValidity k now with _ | ⟨code, message⟩
    · rcases hr : applyRefillIfNeeded st k now with ⟨k2, st2⟩
      have hrefill := applyRefill_remWhole st k now hkmem hall hrfl
      rw [hr] at hrefill
      have hall2 : st2.keys.all remWhole = true := hrefill.1
      have hk2 : remWhole k2 = true := hrefill.2
      by_cases hu : (match k2.remaining with
          | some r => decide (r ≤ 0) | none => false) = true
      · simpa [verify, hf, hc, hr, hu, logVerification] using hall2
      · rcases hkl : keyLevelRateLimit st2 k2 hash now with ⟨orr, st3⟩
        have hkeys3 : st3.keys = st2.keys := by
          have h := keyLevel_keys st2 k2 hash now
          rw [hkl] at h
          exact h
        cases orr with
        | some rr =>
          simpa [verify, hf, hc, hr, hu, hkl, logVerification,
            rateLimitedResult, hkeys3] using hall2
        | none =>
          have hgate : (match k2.remaining with
              | some r => decide (r ≤ 0) | none => false) = false := by
            revert hu
            cases (match k2.remaining with
              | some r => decide (r ≤ 0) | none => false) <;> simp
          have htail := verifySuccessTail_remWhole st3 k2 hash now
            (by rw [hkeys3]; exact hall2) hk2 hgate
          simpa [verify, hf, hc, hr, hu, hkl] using htail
    · simpa [verify, hf, hc, logVerification] using hall

/-- C6 (counterexample): the claim as stated — stored remaining is ≥ 0 after
any verify call regardless of the value it held before (update and create
accept arbitrary, unvalidated numbers) — is false: a key holding
remaining = −3 still holds −3 < 0 after verify completes (USAGE_EXCEEDED, no
decrement, no clamp).  Moreover nonnegativity alone is not preserved: a key
holding the fractional value 1/2 (representable exactly as a JS float and
accepted by the unvalidated number fields) passes the remaining ≤ 0 gate and
is decremented to −1/2 < 0, which forces the whole-number precondition of the
amended claim. -/
theorem verify_remaining_negative_counterexample :
    ((verify { emptyStore with
        keys := [{ sampleKey with remaining := some (-3) }] } "h1" 5).2.keys.map
          KeyRecord.remaining) = [some (-3)] ∧ ((-3 : ℚ) < 0) ∧
    ((verify { emptyStore with
        keys := [{ sampleKey with remaining := some (1/2) }] } "h1"
          5).2.keys.map KeyRecord.remaining) = [some (-(1/2))]
      ∧ ((-(1/2) : ℚ) < 0) := by
  refine ⟨by decide, by decide, ?_, by norm_num⟩
  have h := (verify_single_key_step
    { emptyStore with keys := [{ sampleKey with remaining := some (1/2) }] }
    { sampleKey with remaining := some (1/2) } (1/2) 5 rfl rfl rfl rfl rfl
    rfl rfl rfl).1 (by norm_num)
  have h2 : (verify { emptyStore with
      keys := [{ sampleKey with remaining := some (1/2) }] } "h1" 5).2.keys
      = [{ { sampleKey with remaining := some ((1:ℚ)/2) } with
           remaining := some ((1:ℚ)/2 - 1), updatedAt := 5 }] := h.2.2.2
  rw [h2]
  simp
  norm_num

/-- C6, witness for the amended theorem at a concrete store. -/
theorem verify_remaining_nonneg_witness :
    ((verify { emptyStore with
        keys := [{ sampleKey with remaining := some 1 }] } "h1" 5).2.keys.all
          remWhole) = true :=
  verify_remaining_nonneg _ "h1" 5 (by decide) (by decide)


/-- C2: in the spec-modelled orchestrator with the owner-level shared
rate-limit step, whenever the key is found and valid, refill is a no-op,
usage credits pass, the key-level rate-limit step passes (in particular when
the key carries no key-level ratelimit policy, where it passes trivially and
leaves the store unchanged), and an owner-level override exists for
(ownerId, namespace) whose bucket is in-window and exhausted, verification
returns valid = false with code RATE_LIMITED keyed by the owner bucket. -/
theorem verify_owner_rate_limit (st : Store) (hash : String) (now : Int)
    (k : KeyRecord) (hfind : findKey st.keys hash = some k)
    (hval : checkKeyValidity k now = .ok) (href : k.refill = none)
    (husage : (match k.remaining with
      | some r => decide (r ≤ 0) | none => false) = false)
    (st1 : Store) (hkey : keyLevelRateLimit st k hash now = (none, st1))
    (ov : RateLimitOverride)
    (hov : st1.overrides.find? (fun o => o.keyOrOwnerId == k.ownerId
        && o.«namespace» == k.«namespace») = some ov)
    (b : RateLimitBucket)
    (hb : findBucket st1.buckets k.ownerId k.«namespace» = some b)
    (hwin : ¬ (b.windowStart < now - ov.duration))
    (hcount : ov.limit ≤ b.count) :
    verifyWithOwnerLimit st hash now
      = (rateLimitedResult k (0, b.windowStart + ov.duration),
         logVerification st1 hash now false "RATE_LIMITED" (some 0) none) := by
  have hrefill : applyRefillIfNeeded st k now = (k, st) := by
    simp [applyRefillIfNeeded, href]
  have howner : ownerLevelRateLimit st1 k now
      = (some (0, b.windowStart + ov.duration),
         { st1 with buckets := st1.buckets }) := by
    simp [ownerLevelRateLimit, hov, checkAndUpdateRateLimit, hb, hwin, hcount]
  simp [verifyWithOwnerLimit, hfind, hval, hrefill, husage, hkey, howner]


/-- C2, witness: a key with no key-level ratelimit policy whose owner has an
exhausted shared bucket is rate-limited. -/
theorem verify_owner_rate_limit_witness :
    verifyWithOwnerLimit { emptyStore with
        keys := [sampleKey],
        overrides := [⟨"owner1", "default", 2, 10⟩],
        buckets := [⟨"owner1", "default", 0, 2, 2, 10⟩] } "h1" 5
      = (rateLimitedResult sampleKey (0, 10),
         logVerification { emptyStore with
             keys := [sampleKey],
             overrides := [⟨"owner1", "default", 2, 10⟩],
             buckets := [⟨"owner1", "default", 0, 2, 2, 10⟩] }
           "h1" 5 false "RATE_LIMITED" (some 0) none) :=
  verify_owner_rate_limit _ "h1" 5 sampleKey (by decide) (by decide) rfl
    (by decide) _ rfl ⟨"owner1", "default", 2, 10⟩ (by decide)
    ⟨"owner1", "default", 0, 2, 2, 10⟩ (by decide) (by decide) (by decide)


end ApiKeys
